import Mathlib

/-!
Verification of the security-report normalizer in `src/app/ai-parser.js`.

The JavaScript core is shallowly embedded:
* `JVal` models JavaScript values occurring in this program: the result of
  `JSON.parse` (null, booleans, numbers, strings, arrays, objects) plus
  `undefined`, which property access on a missing key produces.  JSON numbers
  are restricted to integers; no claim involves fractional numbers.
* A parser that starts with `JSON.parse(content)` inside `try { ... } catch`
  takes an `Option JVal`: `none` models an input string that is not valid
  JSON (the `JSON.parse` exception), `some v` the parsed document.
* Property access `a.b` on `null`/`undefined` throws `TypeError`; that is the
  only exception the parser bodies can raise.  Bodies that can throw are
  written in `Except Unit`, and the surrounding `catch` turns an `error` into
  the empty record list, exactly as the source returns `[]` from `catch`.
* Strict equality `===` on two values reachable from distinct positions of a
  `JSON.parse` result is value equality on primitives and `false` whenever
  either side is an object or array (distinct heap references).
-/

/-- JavaScript values manipulated by the normalizer. -/
inductive JVal where
  | undefined
  | null
  | bool (b : Bool)
  | num (n : Int)
  | str (s : String)
  | arr (elems : List JVal)
  | obj (fields : List (String × JVal))

/-- JavaScript truthiness: `undefined`, `null`, `false`, `0` and `""` are
falsy, everything else (including `[]` and `{}`) is truthy. -/
def truthy : JVal → Bool
  | .undefined => false
  | .null => false
  | .bool b => b
  | .num n => n != 0
  | .str s => !(s == "")
  | .arr _ => true
  | .obj _ => true

/-- A value on which property access throws `TypeError`. -/
def isNullish : JVal → Bool
  | .undefined => true
  | .null => true
  | _ => false

/-- JavaScript `typeof v === 'object'`; true for `null`, arrays and
objects. -/
def typeofIsObject : JVal → Bool
  | .null => true
  | .arr _ => true
  | .obj _ => true
  | _ => false

/-- True exactly for array values (`Array.isArray`). -/
def isArrVal : JVal → Bool
  | .arr _ => true
  | _ => false

/-- True exactly for string values. -/
def isStrVal : JVal → Bool
  | .str _ => true
  | _ => false

/-- A value that is neither `null` nor `undefined`; every canonical-record
field the normalizer emits satisfies this. -/
def isDefinedVal : JVal → Bool
  | .undefined => false
  | .null => false
  | _ => true

/-- Object lookup.  `JSON.parse` resolves duplicate keys by keeping the last
value, so the last binding wins. -/
def lookupField (kvs : List (String × JVal)) (k : String) : JVal :=
  match kvs.reverse.find? (fun kv => kv.1 == k) with
  | some kv => kv.2
  | none => .undefined

/-- Named property access `a.b` for an identifier key `b`, defined on
non-nullish receivers (the callers guard nullish receivers); on `null` or
`undefined` it doubles as the short-circuited optional chain `a?.b`, which
yields `undefined`.  Named identifier keys are not array indices, so
primitives and arrays yield `undefined`. -/
def jopt : JVal → String → JVal
  | .obj kvs, k => lookupField kvs k
  | _, _ => .undefined

/-- Indexed access `a?.[i]` for a numeric literal index. -/
def joptIdx : JVal → Nat → JVal
  | .arr xs, i =>
    (match xs.get? i with
     | some x => x
     | none => .undefined)
  | .obj kvs, i => lookupField kvs (toString i)
  | .str s, i =>
    (match s.toList.get? i with
     | some c => .str (String.mk [c])
     | none => .undefined)
  | _, _ => .undefined

/-- Computed member access `o[k]` with a string key, for a non-nullish
receiver: objects look the key up, arrays and strings treat canonical
numeric strings as indices, and other receivers yield `undefined`. -/
def jGetMem (v : JVal) (k : String) : JVal :=
  match v with
  | .obj kvs => lookupField kvs k
  | .arr xs =>
    (match k.toNat? with
     | some n =>
       if toString n = k then
         (match xs.get? n with
          | some x => x
          | none => .undefined)
       else .undefined
     | none => .undefined)
  | .str s =>
    (match k.toNat? with
     | some n =>
       if toString n = k then
         (match s.toList.get? n with
          | some c => .str (String.mk [c])
          | none => .undefined)
       else .undefined
     | none => .undefined)
  | _ => .undefined

/-- JavaScript `a || b`. -/
def jOr (a b : JVal) : JVal :=
  if truthy a then a else b

/-- Strict equality `===` as it behaves on values reachable from one
`JSON.parse` result: value equality on primitives; objects and arrays from
distinct tree positions are distinct references, hence never equal. -/
def jeq : JVal → JVal → Bool
  | .undefined, .undefined => true
  | .null, .null => true
  | .bool a, .bool b => a == b
  | .num a, .num b => a == b
  | .str a, .str b => a == b
  | _, _ => false

/-- Keys enumerated by `Object.keys`: objects list their keys in insertion
order (a duplicated key keeps its first position), arrays and strings list
their indices, primitives have no own enumerable keys. -/
def jKeys : JVal → List String
  | .obj kvs => (kvs.map Prod.fst).eraseDups
  | .arr xs => (List.range xs.length).map toString
  | .str s => (List.range s.length).map toString
  | _ => []

mutual
/-- JavaScript `toString` coercion: arrays join their elements with commas
(`null`/`undefined` elements print as empty), objects print as
`[object Object]`. -/
def jToString : JVal → String
  | .undefined => "undefined"
  | .null => "null"
  | .bool b => if b then "true" else "false"
  | .num n => toString n
  | .str s => s
  | .arr xs => jListToString xs
  | .obj _ => "[object Object]"

/-- Comma join used by array `toString`. -/
def jListToString : List JVal → String
  | [] => ""
  | x :: xs =>
    (match x with
     | .undefined => ""
     | .null => ""
     | v => jToString v) ++
    (match xs with
     | [] => ""
     | _ :: _ => "," ++ jListToString xs)
end

/-- JavaScript `toUpperCase` on the ASCII range, as character-wise
upper-casing. -/
def jsToUpper (s : String) : String :=
  String.mk (s.toList.map Char.toUpper)

/-- Characters removed by `String.prototype.trim` (ASCII whitespace; the
rare Unicode space characters JavaScript also strips do not occur in the
claims). -/
def jsWhitespace (c : Char) : Bool :=
  c = ' ' || c = '\t' || c = '\n' || c = '\x0d' || c = '\x0b' || c = '\x0c'

/-- JavaScript `String.prototype.trim`. -/
def jsTrim (s : String) : String :=
  String.mk (((s.toList.dropWhile jsWhitespace).reverse.dropWhile
    jsWhitespace).reverse)

/-- Split on a single-character separator, keeping empty segments, as
JavaScript `split(sep)` does. -/
def jsSplitChars (p : Char → Bool) : List Char → List (List Char)
  | [] => [[]]
  | c :: cs =>
    if p c then [] :: jsSplitChars p cs
    else
      match jsSplitChars p cs with
      | seg :: rest => (c :: seg) :: rest
      | [] => [[c]]

/-- JavaScript `String.prototype.split` with a one-character separator. -/
def jsSplit (s : String) (p : Char → Bool) : List String :=
  (jsSplitChars p s.toList).map List.asString

/-- JavaScript `String.prototype.endsWith`. -/
def strEndsWith (s suffix : String) : Bool :=
  List.isPrefixOf suffix.toList.reverse s.toList.reverse

/-- Embedding of `String.prototype.includes`: does `s` contain `pat` as a
contiguous substring? -/
def strIncludes (s pat : String) : Bool :=
  containsSub s.toList pat.toList
where
  containsSub : List Char → List Char → Bool
    | l, pat =>
      if List.isPrefixOf pat l then true
      else
        match l with
        | [] => false
        | _ :: t => containsSub t pat

/-- Embedding of `normalizeSeverity` (ai-parser.js:62-71): falsy input maps
to `UNKNOWN`; otherwise the upper-cased string is tested for the candidate
substrings in priority order and, if none matches, returned unchanged. -/
def normalizeSeverity (severity : JVal) : String :=
  if !(truthy severity) then "UNKNOWN"
  else
    let s := jsToUpper (jToString severity)
    if strIncludes s "CRITICAL" || strIncludes s "CRIT" then "CRITICAL"
    else if strIncludes s "HIGH" then "HIGH"
    else if strIncludes s "MEDIUM" || strIncludes s "MED" then "MEDIUM"
    else if strIncludes s "LOW" then "LOW"
    else if strIncludes s "INFO" then "INFO"
    else s

/-- The canonical vulnerability record.  Fields hold `JVal` because the
JavaScript object fields hold whatever value the fallback chain produced,
which is not always a string (see claim C1). -/
structure VulnRecord where
  id : JVal
  name : JVal
  severity : JVal
  file : JVal
  description : JVal
  recommendation : JVal

/-- Result of one tool-category normalizer. -/
structure ToolResult where
  tool : String
  vulnerabilities : List VulnRecord

/-- Sequential `forEach` accumulation: each element contributes a list of
records; the first thrown exception aborts the whole traversal (the `catch`
in the caller then discards everything, as in the source). -/
def eachE (f : α → Except Unit (List β)) : List α → Except Unit (List β)
  | [] => .ok []
  | a :: as =>
    match f a with
    | .error e => .error e
    | .ok l1 =>
      match eachE f as with
      | .error e => .error e
      | .ok l2 => .ok (l1 ++ l2)

/-- Lift a single-record producer to the list shape used by `eachE`. -/
def oneE : Except Unit VulnRecord → Except Unit (List VulnRecord)
  | .error e => .error e
  | .ok r => .ok [r]

/-- Rule lookup `run.tool?.driver?.rules?.find(r => r.id === result.ruleId)`
restricted to an array of rules (ai-parser.js:89).  The callback touches
`r.id` then `result.ruleId`, so a nullish rule entry, or a nullish result
together with a non-empty rule list, throws. -/
def findRule : List JVal → JVal → Except Unit JVal
  | [], _ => .ok .undefined
  | r :: rest, result =>
    if isNullish r then .error ()
    else if isNullish result then .error ()
    else if jeq (jopt r "id") (jopt result "ruleId") then .ok r
    else findRule rest result

/-- The whole optional-chained rule lookup of ai-parser.js:89.  When the
chain short-circuits (`tool`, `driver` or `rules` missing or nullish) the
expression is `undefined`; when `rules` is a non-array non-nullish value,
`.find` is not a function and a `TypeError` is thrown. -/
def sarifRule (run result : JVal) : Except Unit JVal :=
  match jopt (jopt (jopt run "tool") "driver") "rules" with
  | .undefined => .ok .undefined
  | .null => .ok .undefined
  | .arr rules => findRule rules result
  | _ => .error ()

/-- One SARIF result (ai-parser.js:89-99).  `result.locations` is accessed
without optional chaining, so a nullish result throws. -/
def sarifRecord (run result : JVal) : Except Unit VulnRecord :=
  match sarifRule run result with
  | .error e => .error e
  | .ok found =>
    let rule := jOr found (.obj [])
    if isNullish result then .error ()
    else
      let location :=
        jOr (jopt (jopt (jopt (joptIdx (jopt result "locations") 0)
              "physicalLocation") "artifactLocation") "uri") (.str "unknown")
      .ok { id := jOr (jopt result "ruleId") (.str "N/A"),
            name := jOr (jopt rule "name")
              (jOr (jopt (jopt result "message") "text")
                (.str "Unknown vulnerability")),
            severity := .str (normalizeSeverity
              (jOr (jopt result "level")
                (jopt (jopt rule "defaultConfiguration") "level"))),
            file := location,
            description := jOr (jopt (jopt rule "fullDescription") "text")
              (jOr (jopt (jopt rule "shortDescription") "text")
                (jOr (jopt (jopt result "message") "text")
                  (.str "No description"))),
            recommendation := jOr (jopt (jopt rule "help") "text")
              (jOr (jopt rule "helpUri")
                (.str "No recommendation available")) }

/-- One SARIF run (ai-parser.js:87-101): results are processed only when
`run.results` is an array; `run.results` on a nullish run throws. -/
def sarifRun (run : JVal) : Except Unit (List VulnRecord) :=
  if isNullish run then .error ()
  else
    match jopt run "results" with
    | .arr results => eachE (fun result => oneE (sarifRecord run result)) results
    | _ => .ok []

/-- Body of `parseSARIF` after a successful `JSON.parse`
(ai-parser.js:83-105). -/
def parseSARIFDoc (sarif : JVal) : Except Unit (List VulnRecord) :=
  if isNullish sarif then .error ()
  else
    match jopt sarif "runs" with
    | .arr runs => eachE sarifRun runs
    | _ => .ok []

/-- Embedding of `parseSARIF` (ai-parser.js:80-110).  `none` models content
that `JSON.parse` rejects; the `catch` block maps any exception to `[]`. -/
def parseSARIF : Option JVal → List VulnRecord
  | none => []
  | some sarif =>
    match parseSARIFDoc sarif with
    | .ok l => l
    | .error _ => []

/-- Case-insensitive match of the literal pattern `pat` (given upper-cased)
at the head of `l`; returns the matched original characters and the rest. -/
def matchCI : List Char → List Char → Option (List Char × List Char)
  | [], l => some ([], l)
  | _ :: _, [] => none
  | p :: ps, c :: cs =>
    if c.toUpper = p then
      match matchCI ps cs with
      | some (m, r) => some (c :: m, r)
      | none => none
    else none

/-- Match of `/CWE-(\d+)/i` anchored at the head: the letters `CWE`
case-insensitively, a dash, then one or more digits (greedy).  Returns the
capture group (the digits) and the rest of the input after the match. -/
def matchCWEAt (l : List Char) : Option (String × List Char) :=
  match matchCI ['C', 'W', 'E', '-'] l with
  | none => none
  | some (_, rest) =>
    let ds := rest.takeWhile Char.isDigit
    if ds.isEmpty then none
    else some (ds.asString, rest.dropWhile Char.isDigit)

/-- Match of `/(CRITICAL|HIGH|MEDIUM|LOW)/i` anchored at the head, trying
the alternatives in the order they appear in the pattern.  Returns the
matched original text and the rest. -/
def matchSevAt (l : List Char) : Option (String × List Char) :=
  match matchCI "CRITICAL".toList l with
  | some (m, r) => some (m.asString, r)
  | none =>
    match matchCI "HIGH".toList l with
    | some (m, r) => some (m.asString, r)
    | none =>
      match matchCI "MEDIUM".toList l with
      | some (m, r) => some (m.asString, r)
      | none =>
        match matchCI "LOW".toList l with
        | some (m, r) => some (m.asString, r)
        | none => none

/-- Non-overlapping left-to-right scan collecting every match, as
`String.prototype.matchAll` does: on a match, continue after it; otherwise
advance one position.  The fuel starts at the input length and strictly
exceeds the number of remaining steps, since every step consumes at least
one character. -/
def scanAllAux (f : List Char → Option (String × List Char)) :
    Nat → List Char → List String
  | 0, _ => []
  | _ + 1, [] => []
  | fuel + 1, c :: cs =>
    match f (c :: cs) with
    | some (m, rest) => m :: scanAllAux f fuel rest
    | none => scanAllAux f fuel cs

/-- All matches of a head-anchored matcher over the input, in order. -/
def scanAll (f : List Char → Option (String × List Char)) (l : List Char) :
    List String :=
  scanAllAux f l.length l

/-- Capture groups of every `/CWE-(\d+)/gi` match, in document order
(ai-parser.js:119). -/
def scanCWE (l : List Char) : List String := scanAll matchCWEAt l

/-- Every `/(CRITICAL|HIGH|MEDIUM|LOW)/gi` match, in document order
(ai-parser.js:120). -/
def scanSev (l : List Char) : List String := scanAll matchSevAt l

/-- The record built for the i-th CWE / severity pair (ai-parser.js:126-133);
`digits` is the capture group of the CWE match, `sev` the matched severity
word. -/
def htmlRecord (digits sev : String) : VulnRecord :=
  { id := .str ("CWE-" ++ digits),
    name := .str ("Vulnerability CWE-" ++ digits),
    severity := .str (normalizeSeverity (.str sev)),
    file := .str "See HTML report",
    description := .str "Extracted from HTML report",
    recommendation := .str "Refer to HTML report for details" }

/-- Embedding of `parseHTML` (ai-parser.js:115-137): the i-th CWE match is
paired with the i-th severity match for i below both match counts. -/
def parseHTML (content : String) : List VulnRecord :=
  ((scanCWE content.toList).zip (scanSev content.toList)).map
    (fun p => htmlRecord p.1 p.2)

/-- One entry of the generic `vulnerabilities` array of the SCA shape
(ai-parser.js:174-183); a nullish entry throws on `vuln.id`. -/
def scaGenericRecord (vuln : JVal) : Except Unit VulnRecord :=
  if isNullish vuln then .error ()
  else
    .ok { id := jOr (jopt vuln "id") (jOr (jopt vuln "cve") (.str "N/A")),
          name := jOr (jopt vuln "title")
            (jOr (jopt vuln "name") (.str "Unknown vulnerability")),
          severity := .str (normalizeSeverity (jopt vuln "severity")),
          file := jOr (jopt vuln "package")
            (jOr (jopt vuln "library")
              (jOr (jopt vuln "dependency") (.str "unknown"))),
          description := jOr (jopt vuln "description") (.str "No description"),
          recommendation := jOr (jopt vuln "recommendation")
            (jOr (jopt vuln "fix") (.str "Update to latest version")) }

/-- One `via` entry of the npm-audit shape (ai-parser.js:190-201): only
values with `typeof v === 'object'` are considered, which admits `null`;
`null` then throws on `v.cve` inside the `try` block. -/
def npmViaRecord (pkg : String) (vulnPkg v : JVal) :
    Except Unit (List VulnRecord) :=
  if typeofIsObject v then
    if isNullish v then .error ()
    else
      .ok [{ id := jOr (jopt v "cve") (jOr (jopt v "id") (.str "N/A")),
             name := jOr (jopt v "title") (.str "Dependency vulnerability"),
             severity := .str (normalizeSeverity (jopt v "severity")),
             file := .str pkg,
             description := jOr (jopt v "url") (.str "See package for details"),
             recommendation := .str (if truthy (jopt vulnPkg "fixAvailable")
               then "Update available" else "No fix available") }]
  else .ok []

/-- One package of the npm-audit shape (ai-parser.js:187-203): a nullish
advisory object throws on `vuln.via`; `via` entries are processed only when
`via` is an array. -/
def npmPkg (vulns : JVal) (pkg : String) : Except Unit (List VulnRecord) :=
  let vuln := jGetMem vulns pkg
  if isNullish vuln then .error ()
  else
    match jopt vuln "via" with
    | .arr via => eachE (npmViaRecord pkg vuln) via
    | _ => .ok []

/-- Body of `parseSCAJSON` after a successful `JSON.parse`
(ai-parser.js:169-206): an array `vulnerabilities` takes the generic shape,
any other truthy `vulnerabilities` the npm-audit keyed shape. -/
def parseSCADoc (data : JVal) : Except Unit (List VulnRecord) :=
  if isNullish data then .error ()
  else
    match jopt data "vulnerabilities" with
    | .arr vulns => eachE (fun v => oneE (scaGenericRecord v)) vulns
    | vulns =>
      if truthy vulns then eachE (npmPkg vulns) (jKeys vulns)
      else .ok []

/-- Embedding of `parseSCAJSON` (ai-parser.js:167-211). -/
def parseSCAJSON : Option JVal → List VulnRecord
  | none => []
  | some data =>
    match parseSCADoc data with
    | .ok l => l
    | .error _ => []

/-- First match of `/CVE-\d{4}-\d+/i` anchored at the head of `l`: the
letters `CVE` case-insensitively, a dash, exactly four digits, a dash, then
one or more digits (greedy).  Returns the matched original text. -/
def matchCVEAt (l : List Char) : Option String :=
  match matchCI ['C', 'V', 'E', '-'] l with
  | none => none
  | some (m, rest) =>
    match rest with
    | d1 :: d2 :: d3 :: d4 :: r2 =>
      if d1.isDigit && d2.isDigit && d3.isDigit && d4.isDigit then
        match r2 with
        | '-' :: r3 =>
          let ds := r3.takeWhile Char.isDigit
          if ds.isEmpty then none
          else some ((m ++ [d1, d2, d3, d4, '-'] ++ ds).asString)
        | _ => none
      else none
    | _ => none

/-- First match of a head-anchored matcher anywhere in the input, scanning
left to right (`String.prototype.match` without the `g` flag). -/
def findFirst (f : List Char → Option α) : List Char → Option α
  | [] => f []
  | c :: cs =>
    match f (c :: cs) with
    | some r => some r
    | none => findFirst f cs

/-- One line of the free-text SCA report (ai-parser.js:220-235): a line
contributes one record exactly when it contains a CVE-shaped token. -/
def scaTxtLine (line : String) : List VulnRecord :=
  let cveMatch := findFirst matchCVEAt line.toList
  let sevMatch := (findFirst matchSevAt line.toList).map Prod.fst
  match cveMatch with
  | none => []
  | some cve =>
    [{ id := .str cve,
       name := .str ("Vulnerability " ++ cve),
       severity := .str (match sevMatch with
         | some w => normalizeSeverity (.str w)
         | none => "UNKNOWN"),
       file := .str "See TXT report",
       description := .str (jsTrim line),
       recommendation := .str "Update affected package" }]

/-- Embedding of `parseSCATXT` (ai-parser.js:216-238): the content is split
on newlines and each line is processed independently. -/
def parseSCATXT (content : String) : List VulnRecord :=
  ((jsSplit content (fun c => c = '\n')).map scaTxtLine).flatten

/-- JavaScript `riskdesc?.split(' ')[0]`: `undefined` when `riskdesc` is
nullish, the text before the first space when it is a string, and a
`TypeError` otherwise (`.split` is not a function on non-strings). -/
def riskdescFirst : JVal → Except Unit JVal
  | .undefined => .ok .undefined
  | .null => .ok .undefined
  | .str s => .ok (.str ((jsSplit s (fun c => c = ' ')).headD ""))
  | _ => .error ()

/-- One alert of the ZAP site/alert shape (ai-parser.js:278-285); a nullish
alert throws on `alert.pluginid`. -/
def dastAlert (site alert : JVal) : Except Unit VulnRecord :=
  if isNullish alert then .error ()
  else
    match riskdescFirst (jopt alert "riskdesc") with
    | .error e => .error e
    | .ok rfirst =>
      .ok { id := jOr (jopt alert "pluginid")
              (jOr (jopt alert "id") (.str "N/A")),
            name := jOr (jopt alert "name")
              (jOr (jopt alert "alert") (.str "Unknown vulnerability")),
            severity := .str (normalizeSeverity
              (jOr rfirst (jopt alert "risk"))),
            file := jOr (jopt alert "url")
              (jOr (jopt site "name") (.str "unknown")),
            description := jOr (jopt alert "desc")
              (jOr (jopt alert "description") (.str "No description")),
            recommendation := jOr (jopt alert "solution")
              (jOr (jopt alert "recommendation")
                (.str "No recommendation available")) }

/-- One site of the ZAP shape (ai-parser.js:275-288); a nullish site throws
on `site.alerts`. -/
def dastSite (site : JVal) : Except Unit (List VulnRecord) :=
  if isNullish site then .error ()
  else
    match jopt site "alerts" with
    | .arr alerts => eachE (fun a => oneE (dastAlert site a)) alerts
    | _ => .ok []

/-- One entry of the generic DAST `vulnerabilities` array
(ai-parser.js:292-300). -/
def dastGenericRecord (vuln : JVal) : Except Unit VulnRecord :=
  if isNullish vuln then .error ()
  else
    .ok { id := jOr (jopt vuln "id") (.str "N/A"),
          name := jOr (jopt vuln "name")
            (jOr (jopt vuln "title") (.str "Unknown vulnerability")),
          severity := .str (normalizeSeverity (jopt vuln "severity")),
          file := jOr (jopt vuln "url")
            (jOr (jopt vuln "endpoint") (.str "unknown")),
          description := jOr (jopt vuln "description") (.str "No description"),
          recommendation := jOr (jopt vuln "recommendation")
            (jOr (jopt vuln "solution") (.str "No recommendation available")) }

/-- Body of `parseDASTJSON` after a successful `JSON.parse`
(ai-parser.js:270-303): the site/alert shape is tried first, then the
generic shape. -/
def parseDASTDoc (data : JVal) : Except Unit (List VulnRecord) :=
  if isNullish data then .error ()
  else
    match jopt data "site" with
    | .arr sites => eachE dastSite sites
    | _ =>
      match jopt data "vulnerabilities" with
      | .arr vulns => eachE (fun v => oneE (dastGenericRecord v)) vulns
      | _ => .ok []

/-- Embedding of `parseDASTJSON` (ai-parser.js:268-309). -/
def parseDASTJSON : Option JVal → List VulnRecord
  | none => []
  | some data =>
    match parseDASTDoc data with
    | .ok l => l
    | .error _ => []

/-- Embedding of `parseSASTReports` (ai-parser.js:142-158) over the file
list produced by `readFilesFromDirectory` (name, content); a missing or
empty source directory is the empty list.  `jparse` abstracts `JSON.parse`
(`none` = exception). -/
def parseSASTReports (jparse : String → Option JVal)
    (files : List (String × String)) : ToolResult :=
  { tool := "SAST",
    vulnerabilities := (files.map (fun f =>
      if strEndsWith f.1 ".sarif" || strEndsWith f.1 ".json" then
        parseSARIF (jparse f.2)
      else if strEndsWith f.1 ".html" then parseHTML f.2
      else [])).flatten }

/-- Embedding of `parseSCAReports` (ai-parser.js:243-259). -/
def parseSCAReports (jparse : String → Option JVal)
    (files : List (String × String)) : ToolResult :=
  { tool := "SCA",
    vulnerabilities := (files.map (fun f =>
      if strEndsWith f.1 ".json" then parseSCAJSON (jparse f.2)
      else if strEndsWith f.1 ".txt" then parseSCATXT f.2
      else [])).flatten }

/-- Embedding of `parseDASTReports` (ai-parser.js:314-328). -/
def parseDASTReports (jparse : String → Option JVal)
    (files : List (String × String)) : ToolResult :=
  { tool := "DAST",
    vulnerabilities := (files.map (fun f =>
      if strEndsWith f.1 ".json" then parseDASTJSON (jparse f.2)
      else [])).flatten }

/-- All six canonical fields are neither `null` nor `undefined`. -/
def recDefined (r : VulnRecord) : Bool :=
  isDefinedVal r.id && isDefinedVal r.name && isDefinedVal r.severity &&
  isDefinedVal r.file && isDefinedVal r.description &&
  isDefinedVal r.recommendation

/-- Combine the i-th elements of two lists when both exist. -/
def pairIdx {α β γ : Type} (f : α → β → γ) :
    Option α → Option β → Option γ
  | some a, some b => some (f a b)
  | _, _ => none

/-- Truthy values are neither `null` nor `undefined`. -/
theorem truthy_isDefined {v : JVal} (h : truthy v = true) :
    isDefinedVal v = true := by
  cases v <;> simp_all [truthy, isDefinedVal]

/-- A fallback chain whose default is defined yields a defined value. -/
theorem isDefined_jOr {a b : JVal} (h : isDefinedVal b = true) :
    isDefinedVal (jOr a b) = true := by
  unfold jOr
  split
  · exact truthy_isDefined (by assumption)
  · exact h

/-- A truthy left operand short-circuits `||`. -/
theorem jOr_of_truthy {a b : JVal} (h : truthy a = true) : jOr a b = a := by
  simp [jOr, h]

/-- Every record returned by a successful `forEach` traversal comes from
one of the traversed elements. -/
theorem mem_eachE {α β : Type} {f : α → Except Unit (List β)} :
    ∀ {xs : List α} {ys : List β} {y : β},
      eachE f xs = .ok ys → y ∈ ys → ∃ x ∈ xs, ∃ l, f x = .ok l ∧ y ∈ l := by
  intro xs
  induction xs with
  | nil =>
    intro ys y h hy
    simp only [eachE] at h
    injection h with h
    subst h
    simp at hy
  | cons a as ih =>
    intro ys y h hy
    simp only [eachE] at h
    cases hfa : f a with
    | error e => rw [hfa] at h; simp at h
    | ok l1 =>
      rw [hfa] at h
      cases hrest : eachE f as with
      | error e => rw [hrest] at h; simp at h
      | ok l2 =>
        rw [hrest] at h
        injection h with h
        subst h
        rcases List.mem_append.mp hy with h1 | h2
        · exact ⟨a, List.mem_cons_self a as, l1, hfa, h1⟩
        · rcases ih hrest h2 with ⟨x, hx, l, hfl, hyl⟩
          exact ⟨x, List.mem_cons_of_mem a hx, l, hfl, hyl⟩

/-- A record delivered through `oneE` is the produced record. -/
theorem oneE_ok {e : Except Unit VulnRecord} {l : List VulnRecord}
    {r : VulnRecord} (h : oneE e = .ok l) (hr : r ∈ l) : e = .ok r := by
  cases e with
  | error e' => simp [oneE] at h
  | ok r' =>
    simp only [oneE] at h
    injection h with h
    subst h
    simp at hr
    subst hr
    rfl

/-- Every record produced from a SARIF result has all fields defined. -/
theorem sarifRecord_defined {run result : JVal} {r : VulnRecord}
    (h : sarifRecord run result = .ok r) : recDefined r = true := by
  unfold sarifRecord at h
  split at h
  · simp at h
  · split at h
    · simp at h
    · injection h with h
      subst h
      simp only [recDefined, Bool.and_eq_true]
      refine ⟨⟨⟨⟨⟨?_, ?_⟩, ?_⟩, ?_⟩, ?_⟩, ?_⟩
      all_goals first
        | rfl
        | exact isDefined_jOr rfl
        | exact isDefined_jOr (isDefined_jOr rfl)
        | exact isDefined_jOr (isDefined_jOr (isDefined_jOr rfl))

/-- Every record produced from a generic SCA entry has all fields
defined. -/
theorem scaGenericRecord_defined {vuln : JVal} {r : VulnRecord}
    (h : scaGenericRecord vuln = .ok r) : recDefined r = true := by
  unfold scaGenericRecord at h
  split at h
  · simp at h
  · injection h with h
    subst h
    simp only [recDefined, Bool.and_eq_true]
    refine ⟨⟨⟨⟨⟨?_, ?_⟩, ?_⟩, ?_⟩, ?_⟩, ?_⟩
    all_goals first
      | rfl
      | exact isDefined_jOr rfl
      | exact isDefined_jOr (isDefined_jOr rfl)
      | exact isDefined_jOr (isDefined_jOr (isDefined_jOr rfl))

/-- Every record produced from an npm-audit `via` entry has all fields
defined. -/
theorem npmViaRecord_defined {pkg : String} {vp v : JVal}
    {l : List VulnRecord} {r : VulnRecord}
    (h : npmViaRecord pkg vp v = .ok l) (hr : r ∈ l) : recDefined r = true := by
  unfold npmViaRecord at h
  split at h
  · split at h
    · simp at h
    · injection h with h
      subst h
      simp at hr
      subst hr
      simp only [recDefined, Bool.and_eq_true]
      refine ⟨⟨⟨⟨⟨?_, ?_⟩, ?_⟩, ?_⟩, ?_⟩, ?_⟩
      all_goals first
        | rfl
        | exact isDefined_jOr rfl
        | exact isDefined_jOr (isDefined_jOr rfl)
  · injection h with h
    subst h
    simp at hr

/-- Every record produced from a ZAP alert has all fields defined. -/
theorem dastAlert_defined {site alert : JVal} {r : VulnRecord}
    (h : dastAlert site alert = .ok r) : recDefined r = true := by
  unfold dastAlert at h
  split at h
  · simp at h
  · split at h
    · simp at h
    · injection h with h
      subst h
      simp only [recDefined, Bool.and_eq_true]
      refine ⟨⟨⟨⟨⟨?_, ?_⟩, ?_⟩, ?_⟩, ?_⟩, ?_⟩
      all_goals first
        | rfl
        | exact isDefined_jOr rfl
        | exact isDefined_jOr (isDefined_jOr rfl)

/-- Every record produced from a generic DAST entry has all fields
defined. -/
theorem dastGenericRecord_defined {vuln : JVal} {r : VulnRecord}
    (h : dastGenericRecord vuln = .ok r) : recDefined r = true := by
  unfold dastGenericRecord at h
  split at h
  · simp at h
  · injection h with h
    subst h
    simp only [recDefined, Bool.and_eq_true]
    refine ⟨⟨⟨⟨⟨?_, ?_⟩, ?_⟩, ?_⟩, ?_⟩, ?_⟩
    all_goals first
      | rfl
      | exact isDefined_jOr rfl
      | exact isDefined_jOr (isDefined_jOr rfl)

/-- Every record emitted by the SARIF document body has all fields
defined. -/
theorem parseSARIFDoc_defined {sarif : JVal} {l : List VulnRecord}
    {r : VulnRecord} (h : parseSARIFDoc sarif = .ok l) (hr : r ∈ l) :
    recDefined r = true := by
  unfold parseSARIFDoc at h
  split at h
  · simp at h
  · split at h
    · rcases mem_eachE h hr with ⟨run, _, l1, hrun, hr1⟩
      unfold sarifRun at hrun
      split at hrun
      · simp at hrun
      · split at hrun
        · rcases mem_eachE hrun hr1 with ⟨result, _, l2, hrec, hr2⟩
          exact sarifRecord_defined (oneE_ok hrec hr2)
        · injection hrun with hrun
          subst hrun
          simp at hr1
    · injection h with h
      subst h
      simp at hr

/-- Every record emitted by the SCA JSON body has all fields defined. -/
theorem parseSCADoc_defined {data : JVal} {l : List VulnRecord}
    {r : VulnRecord} (h : parseSCADoc data = .ok l) (hr : r ∈ l) :
    recDefined r = true := by
  unfold parseSCADoc at h
  split at h
  · simp at h
  · split at h
    · rcases mem_eachE h hr with ⟨vuln, _, l1, hv, hr1⟩
      exact scaGenericRecord_defined (oneE_ok hv hr1)
    · split at h
      · rcases mem_eachE h hr with ⟨pkg, _, l1, hpkg, hr1⟩
        simp only [npmPkg] at hpkg
        split at hpkg
        · simp at hpkg
        · split at hpkg
          · rcases mem_eachE hpkg hr1 with ⟨v, _, l2, hvia, hr2⟩
            exact npmViaRecord_defined hvia hr2
          · injection hpkg with hpkg
            subst hpkg
            simp at hr1
      · injection h with h
        subst h
        simp at hr

/-- Every record emitted by the DAST JSON body has all fields defined. -/
theorem parseDASTDoc_defined {data : JVal} {l : List VulnRecord}
    {r : VulnRecord} (h : parseDASTDoc data = .ok l) (hr : r ∈ l) :
    recDefined r = true := by
  unfold parseDASTDoc at h
  split at h
  · simp at h
  · split at h
    · rcases mem_eachE h hr with ⟨site, _, l1, hsite, hr1⟩
      unfold dastSite at hsite
      split at hsite
      · simp at hsite
      · split at hsite
        · rcases mem_eachE hsite hr1 with ⟨alert, _, l2, ha, hr2⟩
          exact dastAlert_defined (oneE_ok ha hr2)
        · injection hsite with hsite
          subst hsite
          simp at hr1
    · split at h
      · rcases mem_eachE h hr with ⟨vuln, _, l1, hv, hr1⟩
        exact dastGenericRecord_defined (oneE_ok hv hr1)
      · injection h with h
        subst h
        simp at hr

/-- Every record emitted through a line of the free-text parser has all
fields defined. -/
theorem scaTxtLine_defined {line : String} {r : VulnRecord}
    (hr : r ∈ scaTxtLine line) : recDefined r = true := by
  simp only [scaTxtLine] at hr
  split at hr
  · simp at hr
  · simp at hr
    subst hr
    rfl

/-- C1, counterexample.  The claim says every field of every produced
record is string-valued; but a truthy non-string upstream value passes
through the `||` fallback chain unchanged: the generic SCA entry
`{"id": 123}` yields a record whose `id` is the number `123`, not a
string. -/
theorem claim_C1_counterexample :
    (parseSCAJSON (some (JVal.obj [("vulnerabilities",
        JVal.arr [JVal.obj [("id", JVal.num 123)]])]))).map
      (fun r => isStrVal r.id) = [false] ∧
    (parseSCAJSON (some (JVal.obj [("vulnerabilities",
        JVal.arr [JVal.obj [("id", JVal.num 123)]])]))).map
      (fun r => r.id) = [JVal.num 123] :=
  ⟨rfl, rfl⟩

/-- C1, amended.  Every record produced by any of the five parsers has all
six fields present and neither `null` nor `undefined` (the fallback chains
end in string literals and `||` never yields a falsy left operand); the
severity field and all fallback literals are strings, but a truthy
non-string upstream value is passed through unchanged. -/
theorem claim_C1_theorem :
    (∀ input r, r ∈ parseSARIF input → recDefined r = true) ∧
    (∀ content r, r ∈ parseHTML content → recDefined r = true) ∧
    (∀ input r, r ∈ parseSCAJSON input → recDefined r = true) ∧
    (∀ content r, r ∈ parseSCATXT content → recDefined r = true) ∧
    (∀ input r, r ∈ parseDASTJSON input → recDefined r = true) := by
  refine ⟨?_, ?_, ?_, ?_, ?_⟩
  · intro input r hr
    cases input with
    | none => simp [parseSARIF] at hr
    | some sarif =>
      simp only [parseSARIF] at hr
      split at hr
      · exact parseSARIFDoc_defined (by assumption) hr
      · simp at hr
  · intro content r hr
    unfold parseHTML at hr
    rcases List.mem_map.mp hr with ⟨p, _, hp⟩
    subst hp
    rfl
  · intro input r hr
    cases input with
    | none => simp [parseSCAJSON] at hr
    | some data =>
      simp only [parseSCAJSON] at hr
      split at hr
      · exact parseSCADoc_defined (by assumption) hr
      · simp at hr
  · intro content r hr
    unfold parseSCATXT at hr
    rcases List.mem_flatten.mp hr with ⟨l, hl, hrl⟩
    rcases List.mem_map.mp hl with ⟨line, _, hline⟩
    subst hline
    exact scaTxtLine_defined hrl
  · intro input r hr
    cases input with
    | none => simp [parseDASTJSON] at hr
    | some data =>
      simp only [parseDASTJSON] at hr
      split at hr
      · exact parseDASTDoc_defined (by assumption) hr
      · simp at hr

/-- C1, witness: the amended theorem applied to the concrete record the
free-text parser produces for a CVE line. -/
theorem claim_C1_witness :
    recDefined ⟨JVal.str "CVE-2022-9999",
      JVal.str "Vulnerability CVE-2022-9999",
      JVal.str "HIGH", JVal.str "See TXT report",
      JVal.str "Found CVE-2022-9999 severity HIGH in module X",
      JVal.str "Update affected package"⟩ = true :=
  claim_C1_theorem.2.2.2.1 "Found CVE-2022-9999 severity HIGH in module X" _
    (List.mem_cons_self _ _)

/-- C2.  For every input string whose upper-cased form contains both
`CRITICAL` and `HIGH` as substrings, `normalizeSeverity` returns
`CRITICAL`: the candidates are tested in the fixed order CRITICAL/CRIT,
HIGH, MEDIUM/MED, LOW, INFO, and the CRITICAL test comes first, so it wins
wherever the two substrings occur. -/
theorem claim_C2_theorem :
    ∀ s : String, strIncludes (jsToUpper s) "CRITICAL" = true →
      strIncludes (jsToUpper s) "HIGH" = true →
      normalizeSeverity (JVal.str s) = "CRITICAL" := by
  intro s h1 _h2
  have hs : (s == "") = false := by
    cases hq : s == "" with
    | true =>
      have he : s = "" := by simpa using hq
      subst he
      exact absurd h1 (by decide)
    | false => rfl
  have ht : truthy (JVal.str s) = true := by simp [truthy, hs]
  unfold normalizeSeverity
  rw [ht]
  simp only [Bool.not_true, if_false, jToString]
  simp [h1]

/-- C2, witness: the priority law at the concrete raw value
`HIGH/CRITICAL`. -/
theorem claim_C2_witness :
    strIncludes (jsToUpper "HIGH/CRITICAL") "CRITICAL" = true ∧
    strIncludes (jsToUpper "HIGH/CRITICAL") "HIGH" = true ∧
    normalizeSeverity (JVal.str "HIGH/CRITICAL") = "CRITICAL" :=
  ⟨rfl, rfl, claim_C2_theorem "HIGH/CRITICAL" rfl rfl⟩

/-- C3, counterexample.  The claim says a SARIF result with raw level
`error` yields severity `UNKNOWN`; in fact the classifier's fall-through
returns the raw upper-cased level, so the produced severity is `ERROR`. -/
theorem claim_C3_counterexample :
    (parseSARIF (some (JVal.obj [("runs", JVal.arr [JVal.obj [("results",
        JVal.arr [JVal.obj [("ruleId", JVal.str "R1"),
          ("level", JVal.str "error")]])]])]))).map (fun r => r.severity)
      = [JVal.str "ERROR"] ∧ JVal.str "ERROR" ≠ JVal.str "UNKNOWN" :=
  ⟨rfl, by simp⟩

/-- C3, amended.  A SARIF result whose `level` is the raw string `error`
(likewise `warning`, `note`) is passed through the same classifier used for
CRITICAL/HIGH-style tokens; no candidate substring matches, so the record's
severity is the raw upper-cased level (`ERROR`, `WARNING`, `NOTE`), not
`UNKNOWN` and not a sensible SARIF mapping. -/
theorem claim_C3_theorem :
    ∀ run result r, sarifRecord run result = .ok r →
      ((jopt result "level" = .str "error" → r.severity = .str "ERROR") ∧
       (jopt result "level" = .str "warning" → r.severity = .str "WARNING") ∧
       (jopt result "level" = .str "note" → r.severity = .str "NOTE")) := by
  intro run result r h
  unfold sarifRecord at h
  split at h
  · simp at h
  · split at h
    · simp at h
    · injection h with h
      subst h
      refine ⟨?_, ?_, ?_⟩ <;> intro hl <;> dsimp only <;> rw [hl] <;>
        rw [jOr_of_truthy (by rfl)] <;> rfl

/-- C3, witness: the amended theorem applied to a concrete result with
level `error`. -/
theorem claim_C3_witness :
    sarifRecord (JVal.obj []) (JVal.obj [("level", JVal.str "error")]) =
      .ok ⟨JVal.str "N/A", JVal.str "Unknown vulnerability",
        JVal.str "ERROR", JVal.str "unknown", JVal.str "No description",
        JVal.str "No recommendation available"⟩ ∧
    (⟨JVal.str "N/A", JVal.str "Unknown vulnerability", JVal.str "ERROR",
        JVal.str "unknown", JVal.str "No description",
        JVal.str "No recommendation available"⟩ : VulnRecord).severity =
      JVal.str "ERROR" :=
  ⟨rfl, (claim_C3_theorem (JVal.obj []) (JVal.obj [("level", JVal.str "error")])
      _ rfl).1 rfl⟩

/-- C4, counterexample.  The claim says `normalizeSeverity` returns
`UNKNOWN` exactly when the input is absent or empty; the non-empty,
non-absent input `unknown` also maps to `UNKNOWN`, because the raw
upper-cased fall-through value happens to be the literal `UNKNOWN`. -/
theorem claim_C4_counterexample :
    normalizeSeverity (JVal.str "unknown") = "UNKNOWN" ∧
    "unknown" ≠ "" ∧ truthy (JVal.str "unknown") = true :=
  ⟨rfl, by decide, rfl⟩

/-- Helper: the candidate if-chain of the classifier equals `UNKNOWN`
exactly when the scrutinised string is itself `UNKNOWN`. -/
theorem sevChain_eq_unknown (u : String) :
    ((if strIncludes u "CRITICAL" || strIncludes u "CRIT" then "CRITICAL"
      else if strIncludes u "HIGH" then "HIGH"
      else if strIncludes u "MEDIUM" || strIncludes u "MED" then "MEDIUM"
      else if strIncludes u "LOW" then "LOW"
      else if strIncludes u "INFO" then "INFO"
      else u) = "UNKNOWN") ↔ u = "UNKNOWN" := by
  constructor
  · intro h
    split at h
    · exact absurd h (by decide)
    · split at h
      · exact absurd h (by decide)
      · split at h
        · exact absurd h (by decide)
        · split at h
          · exact absurd h (by decide)
          · split at h
            · exact absurd h (by decide)
            · exact h
  · intro h
    subst h
    rfl

/-- C4, amended.  `normalizeSeverity` returns `UNKNOWN` for absent or empty
input, and a non-empty input matching no candidate substring is returned
upper-cased and unchanged; consequently the result is `UNKNOWN` exactly
when the input string is empty or its upper-cased form is itself the
literal `UNKNOWN` (e.g. the input `unknown`). -/
theorem claim_C4_theorem :
    normalizeSeverity JVal.undefined = "UNKNOWN" ∧
    normalizeSeverity (JVal.str "") = "UNKNOWN" ∧
    (∀ s : String, s ≠ "" →
      strIncludes (jsToUpper s) "CRITICAL" = false →
      strIncludes (jsToUpper s) "CRIT" = false →
      strIncludes (jsToUpper s) "HIGH" = false →
      strIncludes (jsToUpper s) "MEDIUM" = false →
      strIncludes (jsToUpper s) "MED" = false →
      strIncludes (jsToUpper s) "LOW" = false →
      strIncludes (jsToUpper s) "INFO" = false →
      normalizeSeverity (JVal.str s) = jsToUpper s) ∧
    (∀ s : String,
      normalizeSeverity (JVal.str s) = "UNKNOWN" ↔
        (s = "" ∨ jsToUpper s = "UNKNOWN")) := by
  refine ⟨rfl, rfl, ?_, ?_⟩
  · intro s hne h1 h2 h3 h4 h5 h6 h7
    have hs : (s == "") = false := by
      cases hq : s == "" with
      | true => exact absurd (by simpa using hq) hne
      | false => rfl
    have ht : truthy (JVal.str s) = true := by simp [truthy, hs]
    unfold normalizeSeverity
    rw [ht]
    simp only [Bool.not_true, if_false, jToString]
    simp [h1, h2, h3, h4, h5, h6, h7]
  · intro s
    by_cases hse : s = ""
    · subst hse
      constructor
      · intro _; exact Or.inl rfl
      · intro _; rfl
    · have hs : (s == "") = false := by
        cases hq : s == "" with
        | true => exact absurd (by simpa using hq) hse
        | false => rfl
      have ht : truthy (JVal.str s) = true := by simp [truthy, hs]
      unfold normalizeSeverity
      rw [ht]
      simp only [Bool.not_true, jToString]
      rw [if_neg (by simp)]
      rw [sevChain_eq_unknown (jsToUpper s)]
      simp [hse]

/-- C4, witness: the amended theorem's fall-through clause at the concrete
unrecognized token `BANANA`. -/
theorem claim_C4_witness :
    "BANANA" ≠ "" ∧
    normalizeSeverity (JVal.str "BANANA") = jsToUpper "BANANA" :=
  ⟨by decide,
   claim_C4_theorem.2.2.1 "BANANA" (by decide) rfl rfl rfl rfl rfl rfl rfl⟩

/-- C5.  In the npm-audit keyed shape only structured-object `via` entries
contribute records (bare strings are skipped); every contributed record
carries the enclosing package name as `file` and one of exactly two fixed
recommendation strings chosen by `fixAvailable`; the spec's concrete lodash
example yields exactly one record with file `lodash`, severity `HIGH` and
the fix-available recommendation. -/
theorem claim_C5_theorem :
    (∀ pkg vp s, npmViaRecord pkg vp (JVal.str s) = .ok []) ∧
    (∀ pkg vp v, typeofIsObject v = false → npmViaRecord pkg vp v = .ok []) ∧
    (∀ pkg vp v l, npmViaRecord pkg vp v = .ok l →
      typeofIsObject v = true → l.length = 1) ∧
    (∀ pkg vp v l r, npmViaRecord pkg vp v = .ok l → r ∈ l →
      r.file = .str pkg ∧
      (r.recommendation = .str "Update available" ∨
       r.recommendation = .str "No fix available")) ∧
    parseSCAJSON (some (JVal.obj [("vulnerabilities", JVal.obj [("lodash",
        JVal.obj [("via", JVal.arr [JVal.obj [("cve", JVal.str "CVE-2021-1234"),
          ("severity", JVal.str "high")]]),
        ("fixAvailable", JVal.bool true)])])])) =
      [⟨JVal.str "CVE-2021-1234", JVal.str "Dependency vulnerability",
        JVal.str "HIGH", JVal.str "lodash",
        JVal.str "See package for details", JVal.str "Update available"⟩] := by
  refine ⟨?_, ?_, ?_, ?_, rfl⟩
  · intro pkg vp s; rfl
  · intro pkg vp v h
    unfold npmViaRecord
    rw [h]
    rfl
  · intro pkg vp v l h hobj
    unfold npmViaRecord at h
    rw [hobj] at h
    split at h
    · split at h
      · simp at h
      · injection h with h
        subst h
        rfl
    · simp_all
  · intro pkg vp v l r h hr
    unfold npmViaRecord at h
    split at h
    · split at h
      · simp at h
      · injection h with h
        subst h
        simp at hr
        subst hr
        refine ⟨rfl, ?_⟩
        cases htr : truthy (jopt vp "fixAvailable") with
        | true => exact Or.inl rfl
        | false => exact Or.inr rfl
    · injection h with h
      subst h
      simp at hr

/-- C5, witness: the general clauses applied to concrete values — a bare
string entry contributes nothing, a non-object contributes nothing, and the
lodash `via` object contributes one record with file `lodash` and the
fix-available recommendation. -/
theorem claim_C5_witness :
    npmViaRecord "lodash" (JVal.obj [("fixAvailable", JVal.bool true)])
        (JVal.str "other-advisory") = .ok [] ∧
    npmViaRecord "lodash" (JVal.obj []) (JVal.num 3) = .ok [] ∧
    ([⟨JVal.str "CVE-2021-1234", JVal.str "Dependency vulnerability",
       JVal.str "HIGH", JVal.str "lodash",
       JVal.str "See package for details",
       JVal.str "Update available"⟩] : List VulnRecord).length = 1 ∧
    (⟨JVal.str "CVE-2021-1234", JVal.str "Dependency vulnerability",
       JVal.str "HIGH", JVal.str "lodash",
       JVal.str "See package for details",
       JVal.str "Update available"⟩ : VulnRecord).file = .str "lodash" :=
  ⟨claim_C5_theorem.1 "lodash" (JVal.obj [("fixAvailable", JVal.bool true)])
      "other-advisory",
   claim_C5_theorem.2.1 "lodash" (JVal.obj []) (JVal.num 3) rfl,
   claim_C5_theorem.2.2.1 "lodash"
     (JVal.obj [("fixAvailable", JVal.bool true)])
     (JVal.obj [("cve", JVal.str "CVE-2021-1234"),
       ("severity", JVal.str "high")]) _ rfl rfl,
   (claim_C5_theorem.2.2.2.1 "lodash"
     (JVal.obj [("fixAvailable", JVal.bool true)])
     (JVal.obj [("cve", JVal.str "CVE-2021-1234"),
       ("severity", JVal.str "high")]) _ _ rfl
     (List.mem_cons_self _ _)).1⟩

/-- C6.  The free-text parser splits on newlines and handles each line
independently; a line contributes one record exactly when it contains a
token of shape `CVE-` + four digits + `-` + one or more digits
(case-insensitively); the record's id is that token, its severity is the
classified co-occurring severity word when one is present and `UNKNOWN`
otherwise, its description is the trimmed full line, and its file is always
`See TXT report`. -/
theorem claim_C6_theorem :
    (∀ content, parseSCATXT content =
      ((jsSplit content (fun c => c = '\n')).map scaTxtLine).flatten) ∧
    (∀ line, findFirst matchCVEAt line.toList = none →
      scaTxtLine line = []) ∧
    (∀ line cve, findFirst matchCVEAt line.toList = some cve →
      scaTxtLine line =
        [⟨.str cve, .str ("Vulnerability " ++ cve),
          .str (match (findFirst matchSevAt line.toList).map Prod.fst with
            | some w => normalizeSeverity (.str w)
            | none => "UNKNOWN"),
          .str "See TXT report", .str (jsTrim line),
          .str "Update affected package"⟩]) ∧
    parseSCATXT "Found CVE-2022-9999 severity HIGH in module X" =
      [⟨.str "CVE-2022-9999", .str "Vulnerability CVE-2022-9999",
        .str "HIGH", .str "See TXT report",
        .str "Found CVE-2022-9999 severity HIGH in module X",
        .str "Update affected package"⟩] ∧
    parseSCATXT "no token on this line" = [] := by
  refine ⟨fun _ => rfl, ?_, ?_, rfl, rfl⟩
  · intro line h
    have h2 : findFirst matchCVEAt line.data = none := h
    simp [scaTxtLine, h2]
  · intro line cve h
    have h2 : findFirst matchCVEAt line.data = some cve := h
    simp [scaTxtLine, h2]

/-- C6, witness: the per-line clauses at two concrete lines. -/
theorem claim_C6_witness :
    scaTxtLine "a clean line" = [] ∧
    scaTxtLine "see CVE-2020-1234" =
      [⟨.str "CVE-2020-1234", .str "Vulnerability CVE-2020-1234",
        .str "UNKNOWN", .str "See TXT report", .str "see CVE-2020-1234",
        .str "Update affected package"⟩] :=
  ⟨claim_C6_theorem.2.1 "a clean line" rfl,
   claim_C6_theorem.2.2.1 "see CVE-2020-1234" "CVE-2020-1234" rfl⟩

/-- C7.  An input string that is not valid JSON makes each of the three
JSON parsers return the empty sequence (the `catch` boundary; the embedded
parsers are total functions, so no exception escapes), and a parsed SARIF
document without a `runs` array also yields the empty sequence. -/
theorem claim_C7_theorem :
    parseSARIF none = [] ∧ parseSCAJSON none = [] ∧ parseDASTJSON none = [] ∧
    (∀ v, isArrVal (jopt v "runs") = false → parseSARIF (some v) = []) := by
  refine ⟨rfl, rfl, rfl, ?_⟩
  intro v h
  have hd : parseSARIFDoc v = .error () ∨ parseSARIFDoc v = .ok [] := by
    unfold parseSARIFDoc
    split
    · exact Or.inl rfl
    · split
      · rename_i runs heq
        rw [heq] at h
        simp [isArrVal] at h
      · exact Or.inr rfl
  rcases hd with hd | hd <;> simp [parseSARIF, hd]

/-- C7, witness: a parsed document that is a bare number has no `runs`
array and yields the empty sequence. -/
theorem claim_C7_witness :
    isArrVal (jopt (JVal.num 7) "runs") = false ∧
    parseSARIF (some (JVal.num 7)) = [] :=
  ⟨rfl, claim_C7_theorem.2.2.2 (JVal.num 7) rfl⟩

/-- C8.  The per-category normalizers are pure functions of the (file name,
file content) list, so two runs over the same inputs give equal
`ToolResult` values (hence byte-identical serializations), and an empty or
missing source directory (an empty file list) yields the category tag with
an empty vulnerabilities sequence, never an error. -/
theorem claim_C8_theorem :
    (∀ jparse, parseSASTReports jparse [] = ⟨"SAST", []⟩ ∧
      parseSCAReports jparse [] = ⟨"SCA", []⟩ ∧
      parseDASTReports jparse [] = ⟨"DAST", []⟩) ∧
    (∀ jparse files, parseSASTReports jparse files = parseSASTReports jparse files ∧
      parseSCAReports jparse files = parseSCAReports jparse files ∧
      parseDASTReports jparse files = parseDASTReports jparse files) :=
  ⟨fun _ => ⟨rfl, rfl, rfl⟩, fun _ _ => ⟨rfl, rfl, rfl⟩⟩

/-- C9.  In the npm-audit shape a `null` entry of `via` passes the `typeof`
guard (`typeof null` is `object`), the field access then throws inside the
`try` block, and the whole file degrades to the empty sequence: the record
the sibling package `aaa` would contribute on its own is discarded. -/
theorem claim_C9_theorem :
    typeofIsObject JVal.null = true ∧
    npmViaRecord "bbb" (JVal.obj [("via", JVal.arr [JVal.null])]) JVal.null =
      .error () ∧
    parseSCAJSON (some (JVal.obj [("vulnerabilities", JVal.obj
      [("aaa", JVal.obj [("via", JVal.arr [JVal.obj
          [("cve", JVal.str "CVE-2021-0001")]]),
        ("fixAvailable", JVal.bool true)])])])) =
      [⟨JVal.str "CVE-2021-0001", JVal.str "Dependency vulnerability",
        JVal.str "UNKNOWN", JVal.str "aaa",
        JVal.str "See package for details", JVal.str "Update available"⟩] ∧
    parseSCAJSON (some (JVal.obj [("vulnerabilities", JVal.obj
      [("aaa", JVal.obj [("via", JVal.arr [JVal.obj
          [("cve", JVal.str "CVE-2021-0001")]]),
        ("fixAvailable", JVal.bool true)]),
       ("bbb", JVal.obj [("via", JVal.arr [JVal.null])])])])) = [] :=
  ⟨rfl, rfl, rfl, rfl⟩

/-- Indexing a zipped-and-mapped list pairs the i-th elements of the two
source lists. -/
theorem get?_zip_map {α β γ : Type} (f : α → β → γ) :
    ∀ (l1 : List α) (l2 : List β) (i : Nat),
      ((l1.zip l2).map (fun p => f p.1 p.2)).get? i =
        pairIdx f (l1.get? i) (l2.get? i) := by
  intro l1
  induction l1 with
  | nil => intro l2 i; cases h : l2.get? i <;> rfl
  | cons a as ih =>
    intro l2 i
    cases l2 with
    | nil =>
      cases i with
      | zero => rfl
      | succ n => cases h : as.get? n <;> simp [h, pairIdx]
    | cons b bs =>
      cases i with
      | zero => rfl
      | succ n => exact ih bs n

/-- C10.  The HTML parser produces exactly
min(CWE matches, severity-word matches) records, pairing the i-th CWE
capture with the i-th severity word in document order; a document with CWE
tokens but no severity word, or vice versa, yields zero records. -/
theorem claim_C10_theorem :
    (∀ content, (parseHTML content).length =
      min (scanCWE content.toList).length (scanSev content.toList).length) ∧
    (∀ content i, (parseHTML content).get? i =
      pairIdx htmlRecord ((scanCWE content.toList).get? i)
        ((scanSev content.toList).get? i)) ∧
    (∀ content, scanSev content.toList = [] → parseHTML content = []) ∧
    (∀ content, scanCWE content.toList = [] → parseHTML content = []) := by
  refine ⟨?_, ?_, ?_, ?_⟩
  · intro c
    simp [parseHTML, List.length_zip]
  · intro c i
    unfold parseHTML
    exact get?_zip_map htmlRecord (scanCWE c.toList) (scanSev c.toList) i
  · intro c h
    have h2 : scanSev c.data = [] := h
    simp [parseHTML, h2]
  · intro c h
    have h2 : scanCWE c.data = [] := h
    simp [parseHTML, h2]

/-- C10, witness: a document with CWE tokens but no severity words, and one
with a severity word but no CWE token, each yield zero records. -/
theorem claim_C10_witness :
    scanSev "CWE-79 and CWE-89".toList = [] ∧
    parseHTML "CWE-79 and CWE-89" = [] ∧
    scanCWE "only HIGH here".toList = [] ∧
    parseHTML "only HIGH here" = [] :=
  ⟨rfl, claim_C10_theorem.2.2.1 "CWE-79 and CWE-89" rfl,
   rfl, claim_C10_theorem.2.2.2 "only HIGH here" rfl⟩
